import Mathlib

/-!
Verification development for the Db2/SQLAlchemy SSL connection-configuration
module (`src/app.py`).

The module builds driver connection descriptors in two ways:

* `create_engine_with_dsn` — assembles a semicolon-delimited DSN attribute
  list, percent-encodes the whole DSN with `urllib.parse.quote_plus`, and
  embeds it as the single `dsn` query parameter of a minimal URL;
* `create_engine_with_url_params` — builds a URL with percent-encoded
  credentials embedded directly, plus a query string of individually
  percent-encoded parameter values;

and verifies connectivity with `test_connection`, which runs a trivial query
and converts SQLAlchemy errors into a boolean result.

The embedding below models Python strings as Lean `String` (a list of Unicode
scalar values, as in CPython), `urllib.parse.quote_plus` byte-for-byte via
UTF-8 encoding and the percent/plus escaping rules of `urllib.parse.quote`
with an empty safe set, and `urllib.parse.unquote_plus` via plus-to-space,
percent-sequence collection and UTF-8 decoding (malformed sequences produce
U+FFFD, as with the default errors=replace handling; literal characters
contribute their own scalar values, which coincides with CPython behaviour on
all outputs of `quote_plus`).  Engine creation itself is pure delegation to
`sqlalchemy.create_engine` and is not modelled; the builder functions are
modelled as returning the constructed URL string.
-/

/-- Python `str.join`: `sep.join(parts)`. -/
def pyJoin (sep : String) : List String → String
  | [] => ""
  | [x] => x
  | x :: xs => x ++ sep ++ pyJoin sep xs

/-- The characters `urllib.parse.quote` never escapes (its `_ALWAYS_SAFE`
set): ASCII letters, digits, and the bytes for `_`, `.`, `-`, `~`. -/
def alwaysSafe (b : Nat) : Bool :=
  (48 ≤ b && b ≤ 57) || (65 ≤ b && b ≤ 90) || (97 ≤ b && b ≤ 122) ||
    b == 45 || b == 46 || b == 95 || b == 126

/-- Upper-case hexadecimal digit for a value below 16, as emitted by
`urllib.parse.quote`. -/
def hexUpper (n : Nat) : Char :=
  if n < 10 then Char.ofNat (48 + n) else Char.ofNat (55 + n)

/-- Escape one byte as `quote_plus` does with an empty safe set: safe bytes
stand for themselves, a space becomes `+`, and every other byte becomes
`%XX` with upper-case hex digits. -/
def encodeByte (b : Nat) : List Char :=
  if alwaysSafe b then [Char.ofNat b]
  else if b == 32 then ['+']
  else ['%', hexUpper (b / 16), hexUpper (b % 16)]

/-- UTF-8 encoding of one Unicode scalar value as a list of byte values. -/
def utf8EncodeNat (n : Nat) : List Nat :=
  if n < 128 then [n]
  else if n < 2048 then [192 + n / 64, 128 + n % 64]
  else if n < 65536 then [224 + n / 4096, 128 + n / 64 % 64, 128 + n % 64]
  else [240 + n / 262144, 128 + n / 4096 % 64, 128 + n / 64 % 64, 128 + n % 64]

/-- UTF-8 encoding of one character. -/
def utf8EncodeChar (c : Char) : List Nat := utf8EncodeNat c.toNat

/-- Character-level core of `urllib.parse.quote_plus`: UTF-8 encode the text,
then escape each byte. -/
def quotePlusChars (cs : List Char) : List Char :=
  (cs.flatMap utf8EncodeChar).flatMap encodeByte

/-- Model of Python `urllib.parse.quote_plus(s)` (empty safe set). -/
def quote_plus (s : String) : String := String.mk (quotePlusChars s.data)

/-- The plus-to-space substitution `unquote_plus` applies before percent
decoding. -/
def plusToSpace (c : Char) : Char := if c == '+' then ' ' else c

/-- Hexadecimal digit test, accepting both cases as `urllib.parse.unquote`
does. -/
def isHexD (c : Char) : Bool :=
  (48 ≤ c.toNat && c.toNat ≤ 57) || (65 ≤ c.toNat && c.toNat ≤ 70) ||
    (97 ≤ c.toNat && c.toNat ≤ 102)

/-- Value of a hexadecimal digit character (meaningful when `isHexD` holds). -/
def hexVal (c : Char) : Nat :=
  if 48 ≤ c.toNat && c.toNat ≤ 57 then c.toNat - 48
  else if 65 ≤ c.toNat && c.toNat ≤ 70 then c.toNat - 55
  else c.toNat - 87

/-- Percent-decoding pass of `urllib.parse.unquote`: a valid `%XX` sequence
contributes the byte `XX`; any other character contributes its own UTF-8
bytes (for the ASCII-only output of `quote`, its own byte). -/
def percentDecode : List Char → List Nat
  | [] => []
  | c :: cs =>
    if c == '%' then
      match cs with
      | h1 :: h2 :: cs' =>
        if isHexD h1 && isHexD h2 then
          (16 * hexVal h1 + hexVal h2) :: percentDecode cs'
        else utf8EncodeChar c ++ percentDecode (h1 :: h2 :: cs')
      | [h1] => utf8EncodeChar c ++ percentDecode [h1]
      | [] => utf8EncodeChar c ++ percentDecode []
    else utf8EncodeChar c ++ percentDecode cs
termination_by l => l.length
decreasing_by all_goals (simp only [List.length_cons]; omega)

/-- Continuation-byte test for UTF-8 decoding. -/
def contB (b : Nat) : Bool := 128 ≤ b && b < 192

/-- U+FFFD REPLACEMENT CHARACTER, emitted for malformed sequences. -/
def repl : Char := Char.ofNat 65533

/-- Decoding of one UTF-8-encoded scalar value from the byte stream: given the
first byte and the remaining stream, produce the decoded character and the
bytes left over.  Overlong forms, surrogates, out-of-range values, stray or
missing continuation bytes yield U+FFFD, as in CPython's decoder. -/
def decodeOne (b : Nat) (bs : List Nat) : Char × List Nat :=
  if b < 128 then (Char.ofNat b, bs)
  else if b < 192 then (repl, bs)
  else if b < 224 then
    match bs with
    | b1 :: bs' =>
      if contB b1 then
        let n := (b - 192) * 64 + (b1 - 128)
        if 128 ≤ n then (Char.ofNat n, bs') else (repl, bs')
      else (repl, b1 :: bs')
    | [] => (repl, [])
  else if b < 240 then
    match bs with
    | b1 :: b2 :: bs' =>
      if contB b1 && contB b2 then
        let n := (b - 224) * 4096 + (b1 - 128) * 64 + (b2 - 128)
        if 2048 ≤ n && !(55296 ≤ n && n < 57344) then (Char.ofNat n, bs')
        else (repl, bs')
      else (repl, b1 :: b2 :: bs')
    | _ => (repl, [])
  else if b < 248 then
    match bs with
    | b1 :: b2 :: b3 :: bs' =>
      if contB b1 && contB b2 && contB b3 then
        let n := (b - 240) * 262144 + (b1 - 128) * 4096 +
          (b2 - 128) * 64 + (b3 - 128)
        if 65536 ≤ n && n < 1114112 then (Char.ofNat n, bs')
        else (repl, bs')
      else (repl, b1 :: b2 :: b3 :: bs')
    | _ => (repl, [])
  else (repl, bs)

theorem decodeOne_snd_length (b : Nat) (bs : List Nat) :
    (decodeOne b bs).2.length ≤ bs.length := by
  unfold decodeOne
  repeat' split
  all_goals try simp_all
  all_goals try (repeat' split)
  all_goals try simp_all
  all_goals omega

/-- UTF-8 decoding of a byte stream, one scalar value at a time. -/
def utf8DecodeNats : List Nat → List Char
  | [] => []
  | b :: bs => (decodeOne b bs).1 :: utf8DecodeNats (decodeOne b bs).2
termination_by l => l.length
decreasing_by
  have := decodeOne_snd_length b bs
  simp only [List.length_cons]
  omega

/-- Model of Python `urllib.parse.unquote_plus(s)`: replace `+` by space,
percent-decode to a byte stream, UTF-8 decode. -/
def unquote_plus (s : String) : String :=
  String.mk (utf8DecodeNats (percentDecode (s.data.map plusToSpace)))

/-- The DSN attribute list assembled by `create_engine_with_dsn`
(`dsn_attrs` in `src/app.py`): the eight fixed attributes, followed by
`SSLServerCertificate` when `ca_cert_path` is truthy (Python `if
ca_cert_path:` — neither `None` nor the empty string). -/
def dsn_attrs (user password host : String) (port : Int) (database : String)
    (ca_cert_path : Option String) (connect_timeout : Int) : List String :=
  let base := [
    "DATABASE=" ++ database,
    "HOSTNAME=" ++ host,
    "PORT=" ++ toString port,
    "PROTOCOL=TCPIP",
    "UID=" ++ user,
    "PWD=" ++ password,
    "Security=SSL",
    "CONNECTTIMEOUT=" ++ toString connect_timeout]
  match ca_cert_path with
  | some p => if p = "" then base else base ++ ["SSLServerCertificate=" ++ p]
  | none => base

/-- The joined DSN string (`dsn = ";".join(dsn_attrs)` in `src/app.py`). -/
def dsn_string (user password host : String) (port : Int) (database : String)
    (ca_cert_path : Option String) (connect_timeout : Int) : String :=
  pyJoin ";" (dsn_attrs user password host port database ca_cert_path connect_timeout)

/-- Model of `create_engine_with_dsn` from `src/app.py`: the URL it passes to
`sqlalchemy.create_engine` (engine creation itself is delegation to the
library and is not modelled). -/
def create_engine_with_dsn (user password host : String) (port : Int)
    (database : String) (ca_cert_path : Option String)
    (connect_timeout : Int) : String :=
  "ibm_db_sa:///?dsn=" ++
    quote_plus (dsn_string user password host port database ca_cert_path connect_timeout)

/-- The query-parameter association list built by
`create_engine_with_url_params` (`params` in `src/app.py`; Python dicts
preserve insertion order). -/
def url_params_list (ca_cert_path : Option String) (connect_timeout : Int) :
    List (String × String) :=
  [("security", "SSL"), ("connecttimeout", toString connect_timeout)] ++
    match ca_cert_path with
    | some p => if p = "" then [] else [("SSLServerCertificate", p)]
    | none => []

/-- Model of `create_engine_with_url_params` from `src/app.py`: the URL it
passes to `sqlalchemy.create_engine`. -/
def create_engine_with_url_params (user password host : String) (port : Int)
    (database : String) (ca_cert_path : Option String)
    (connect_timeout : Int) : String :=
  let base := "ibm_db_sa://" ++ quote_plus user ++ ":" ++ quote_plus password ++
    "@" ++ host ++ ":" ++ toString port ++ "/" ++ database
  let qs := pyJoin "&"
    ((url_params_list ca_cert_path connect_timeout).map
      (fun kv => kv.1 ++ "=" ++ quote_plus kv.2))
  base ++ (if qs = "" then "" else "?" ++ qs)

/-- Python exceptions visible at the `test_connection` boundary: either an
instance of `sqlalchemy.exc.SQLAlchemyError` (the class every driver and
library connection error is surfaced as, and the only class the `except`
clause catches) or any other exception. -/
inductive DbError where
  | sqlalchemyError (msg : String)
  | otherError (msg : String)
deriving DecidableEq, Repr

/-- Python `str(e)` on a caught exception. -/
def DbError.str : DbError → String
  | .sqlalchemyError m => m
  | .otherError m => m

/-- Stub of an SQLAlchemy engine as exercised by `test_connection`: each of
the three calls in the `try` body (`engine.connect()`, `conn.execute(...)`,
`result.scalar()`) either raises or succeeds, the last returning the scalar
value of the fixed query. -/
structure StubEngine where
  connectStep : Except DbError Unit
  executeStep : Except DbError Unit
  scalarStep : Except DbError Int
deriving Repr

/-- The `try` body of `test_connection`: connect, execute the fixed query,
read the scalar, print it.  Returns the lines printed; an exception at any
step aborts the body and propagates. -/
def try_body (e : StubEngine) : Except DbError (List String) := do
  let _ ← e.connectStep
  let _ ← e.executeStep
  let v ← e.scalarStep
  pure ["Connection test returned: " ++ toString v]

/-- Model of `test_connection` from `src/app.py`: on success of the body it
returns `True`; a `SQLAlchemyError` is caught, its string representation is
printed, and `False` is returned; any other exception propagates (`Except.error`).
The result pairs the boolean with the lines printed to standard output. -/
def test_connection (e : StubEngine) : Except DbError (Bool × List String) :=
  match try_body e with
  | .ok lines => .ok (true, lines)
  | .error (.sqlalchemyError m) =>
    .ok (false, ["Connection test failed: " ++ m])
  | .error err => .error err

/-- Prefix test on character lists (used to state that an attribute list
contains no `SSLServerCertificate=` attribute). -/
def beginsWith : List Char → List Char → Bool
  | [], _ => true
  | _ :: _, [] => false
  | p :: ps, c :: cs => p == c && beginsWith ps cs

/-! ### Basic helper lemmas -/

theorem str_data_ext {a b : String} (h : a.data = b.data) : a = b := by
  cases a; cases b; simp only at h; rw [h]

theorem str_data_append (a b : String) : (a ++ b).data = a.data ++ b.data := rfl

theorem char_toNat_ofNat {b : Nat} (hv : Nat.isValidChar b) :
    (Char.ofNat b).toNat = b := by
  rw [Char.ofNat, dif_pos hv]; rfl

theorem alwaysSafe_iff {b : Nat} : alwaysSafe b = true ↔
    ((48 ≤ b ∧ b ≤ 57) ∨ (65 ≤ b ∧ b ≤ 90) ∨ (97 ≤ b ∧ b ≤ 122) ∨
      b = 45 ∨ b = 46 ∨ b = 95 ∨ b = 126) := by
  simp only [alwaysSafe, Bool.or_eq_true, Bool.and_eq_true, decide_eq_true_eq,
    beq_iff_eq]
  tauto

theorem alwaysSafe_lt {b : Nat} (h : alwaysSafe b = true) : b < 128 := by
  rcases alwaysSafe_iff.mp h with h | h | h | h | h | h | h <;> omega

theorem hexUpper_spec {n : Nat} (h : n < 16) :
    isHexD (hexUpper n) = true ∧ hexVal (hexUpper n) = n ∧
      plusToSpace (hexUpper n) = hexUpper n := by
  interval_cases n <;> exact ⟨by decide, by decide, by decide⟩

theorem percentDecode_token {b : Nat} (hb : b < 256) (cs : List Char) :
    percentDecode ((encodeByte b).map plusToSpace ++ cs) = b :: percentDecode cs := by
  by_cases hs : alwaysSafe b = true
  · have hlt : b < 128 := alwaysSafe_lt hs
    have hv : Nat.isValidChar b := Or.inl (by omega)
    have htn : (Char.ofNat b).toNat = b := char_toNat_ofNat hv
    have hne43 : b ≠ 43 := by
      rcases alwaysSafe_iff.mp hs with h | h | h | h | h | h | h <;> omega
    have hne37 : b ≠ 37 := by
      rcases alwaysSafe_iff.mp hs with h | h | h | h | h | h | h <;> omega
    have hplus : ¬ (Char.ofNat b = '+') := by
      intro hEq
      have := congrArg Char.toNat hEq
      rw [htn] at this
      exact hne43 (by simpa using this)
    have hpct : ¬ (Char.ofNat b = '%') := by
      intro hEq
      have := congrArg Char.toNat hEq
      rw [htn] at this
      exact hne37 (by simpa using this)
    simp only [encodeByte, if_pos hs, List.map_cons, List.map_nil,
      List.cons_append, List.nil_append]
    rw [show plusToSpace (Char.ofNat b) = Char.ofNat b by
      simp [plusToSpace, hplus]]
    rw [percentDecode.eq_def]
    simp [hpct, utf8EncodeChar, htn, utf8EncodeNat, hlt]
  · by_cases h32 : b = 32
    · subst h32
      rw [show (encodeByte 32).map plusToSpace = [' '] by decide]
      rw [List.cons_append, List.nil_append, percentDecode.eq_def]
      simp [show ¬ (' ' = '%') by decide, utf8EncodeChar, utf8EncodeNat]
    · have hd1 : b / 16 < 16 := by omega
      have hd2 : b % 16 < 16 := by omega
      obtain ⟨hx1, hv1, hp1⟩ := hexUpper_spec hd1
      obtain ⟨hx2, hv2, hp2⟩ := hexUpper_spec hd2
      have henc : encodeByte b = ['%', hexUpper (b / 16), hexUpper (b % 16)] := by
        simp [encodeByte, hs, h32]
      rw [henc]
      simp only [List.map_cons, List.map_nil, hp1, hp2,
        show plusToSpace '%' = '%' by decide, List.cons_append, List.nil_append]
      rw [percentDecode.eq_def]
      simp [hx1, hx2, hv1, hv2]
      omega

theorem percentDecode_encoded (bs : List Nat) (h : ∀ b ∈ bs, b < 256) :
    percentDecode ((bs.flatMap encodeByte).map plusToSpace) = bs := by
  induction bs with
  | nil => simp [percentDecode]
  | cons b rest ih =>
    rw [List.flatMap_cons, List.map_append,
      percentDecode_token (h b (by simp)),
      ih (fun x hx => h x (by simp [hx]))]

theorem utf8EncodeNat_bytes_lt {n : Nat} (hn : n < 1114112) :
    ∀ b ∈ utf8EncodeNat n, b < 256 := by
  intro b hb
  simp only [utf8EncodeNat] at hb
  split at hb
  · simp at hb; omega
  · split at hb
    · simp at hb; rcases hb with hb | hb <;> omega
    · split at hb
      · simp at hb; rcases hb with hb | hb | hb <;> omega
      · simp at hb; rcases hb with hb | hb | hb | hb <;> omega


set_option maxHeartbeats 1000000 in
theorem decodeOne_utf8 {n : Nat} (hv : Nat.isValidChar n) (bs : List Nat) :
    decodeOne (utf8EncodeNat n).head! ((utf8EncodeNat n).tail ++ bs) =
      (Char.ofNat n, bs) := by
  have hn : n < 1114112 := by
    rcases hv with h | ⟨ha, hb⟩ <;> omega
  have hsur : n < 55296 ∨ 57344 ≤ n := by
    rcases hv with h | ⟨ha, hb⟩ <;> omega
  by_cases h1 : n < 128
  · rw [show utf8EncodeNat n = [n] from by simp [utf8EncodeNat, h1]]
    simp only [List.head!, List.tail, List.nil_append, decodeOne, if_pos h1]
  · by_cases h2 : n < 2048
    · rw [show utf8EncodeNat n = [192 + n / 64, 128 + n % 64] from by
        simp [utf8EncodeNat, h1, h2]]
      simp only [List.head!, List.tail, List.cons_append, List.nil_append,
        decodeOne]
      repeat' split
      all_goals simp_all [contB]
      all_goals try omega
      all_goals (congr 1; omega)
    · by_cases h3 : n < 65536
      · rw [show utf8EncodeNat n =
            [224 + n / 4096, 128 + n / 64 % 64, 128 + n % 64] from by
          simp [utf8EncodeNat, h1, h2, h3]]
        simp only [List.head!, List.tail, List.cons_append, List.nil_append,
          decodeOne]
        repeat' split
        all_goals simp_all [contB]
        all_goals try omega
        all_goals (congr 1; omega)
      · rw [show utf8EncodeNat n =
            [240 + n / 262144, 128 + n / 4096 % 64, 128 + n / 64 % 64,
              128 + n % 64] from by simp [utf8EncodeNat, h1, h2, h3]]
        simp only [List.head!, List.tail, List.cons_append, List.nil_append,
          decodeOne]
        repeat' split
        all_goals simp_all [contB]
        all_goals try omega
        all_goals (congr 1; omega)

theorem char_toNat_lt (c : Char) : c.toNat < 1114112 := by
  unfold Char.toNat
  rcases c.valid with h | ⟨ha, hb⟩ <;> omega

theorem utf8DecodeNats_token {n : Nat} (hv : Nat.isValidChar n) (bs : List Nat) :
    utf8DecodeNats (utf8EncodeNat n ++ bs) = Char.ofNat n :: utf8DecodeNats bs := by
  have hne : utf8EncodeNat n ≠ [] := by
    unfold utf8EncodeNat
    repeat' split
    all_goals simp
  have hcons : utf8EncodeNat n = (utf8EncodeNat n).head! :: (utf8EncodeNat n).tail := by
    cases hE : utf8EncodeNat n with
    | nil => exact absurd hE hne
    | cons a l => simp [List.head!]
  rw [hcons, List.cons_append]
  rw [utf8DecodeNats]
  rw [decodeOne_utf8 hv bs]

theorem char_isValid_toNat (c : Char) : Nat.isValidChar c.toNat := c.valid

theorem utf8DecodeNats_encoded (cs : List Char) :
    utf8DecodeNats (cs.flatMap utf8EncodeChar) = cs := by
  induction cs with
  | nil => simp [utf8DecodeNats]
  | cons c cst ih =>
    rw [List.flatMap_cons, utf8EncodeChar,
      utf8DecodeNats_token (char_isValid_toNat c), ih, Char.ofNat_toNat]

theorem quotePlusChars_bytes_lt (cs : List Char) :
    ∀ b ∈ cs.flatMap utf8EncodeChar, b < 256 := by
  intro b hb
  rw [List.mem_flatMap] at hb
  obtain ⟨c, _, hbc⟩ := hb
  exact utf8EncodeNat_bytes_lt (char_toNat_lt c) b hbc

/-- Percent-encoding round trip: `unquote_plus` is a left inverse of
`quote_plus` on every string. -/
theorem unquote_plus_quote_plus (s : String) :
    unquote_plus (quote_plus s) = s := by
  apply str_data_ext
  show utf8DecodeNats (percentDecode
    (((s.data.flatMap utf8EncodeChar).flatMap encodeByte).map plusToSpace)) = s.data
  rw [percentDecode_encoded _ (quotePlusChars_bytes_lt s.data),
    utf8DecodeNats_encoded]

theorem char_ofNat_ne {b : Nat} (hv : Nat.isValidChar b) (c : Char)
    (hm : b ≠ c.toNat) : Char.ofNat b ≠ c :=
  fun hEq => hm (by rw [← char_toNat_ofNat hv, hEq])

theorem hexUpper_no_special {n : Nat} (h : n < 16) :
    hexUpper n ≠ ';' ∧ hexUpper n ≠ '=' ∧ hexUpper n ≠ '&' ∧ hexUpper n ≠ '@' := by
  interval_cases n <;> exact ⟨by decide, by decide, by decide, by decide⟩

theorem encodeByte_no_special {b : Nat} (hb : b < 256) :
    ∀ c ∈ encodeByte b, c ≠ ';' ∧ c ≠ '=' ∧ c ≠ '&' ∧ c ≠ '@' := by
  intro c hc
  by_cases hs : alwaysSafe b = true
  · rw [encodeByte, if_pos hs] at hc
    rw [List.mem_singleton] at hc
    subst hc
    have hv : Nat.isValidChar b := Or.inl (by have := alwaysSafe_lt hs; omega)
    have hbs := alwaysSafe_iff.mp hs
    refine ⟨char_ofNat_ne hv _ ?_, char_ofNat_ne hv _ ?_,
      char_ofNat_ne hv _ ?_, char_ofNat_ne hv _ ?_⟩
    · rw [show (';' : Char).toNat = 59 from by decide]
      rcases hbs with h | h | h | h | h | h | h <;> omega
    · rw [show ('=' : Char).toNat = 61 from by decide]
      rcases hbs with h | h | h | h | h | h | h <;> omega
    · rw [show ('&' : Char).toNat = 38 from by decide]
      rcases hbs with h | h | h | h | h | h | h <;> omega
    · rw [show ('@' : Char).toNat = 64 from by decide]
      rcases hbs with h | h | h | h | h | h | h <;> omega
  · by_cases h32 : b = 32
    · subst h32
      rw [show encodeByte 32 = ['+'] from by decide] at hc
      rw [List.mem_singleton] at hc
      subst hc
      exact ⟨by decide, by decide, by decide, by decide⟩
    · rw [show encodeByte b = ['%', hexUpper (b / 16), hexUpper (b % 16)] from by
        simp [encodeByte, hs, h32]] at hc
      have hd1 : b / 16 < 16 := by omega
      have hd2 : b % 16 < 16 := by omega
      rcases List.mem_cons.mp hc with hc | hc
      · subst hc; exact ⟨by decide, by decide, by decide, by decide⟩
      · rcases List.mem_cons.mp hc with hc | hc
        · subst hc; exact hexUpper_no_special hd1
        · rw [List.mem_singleton] at hc
          subst hc
          exact hexUpper_no_special hd2

theorem quote_plus_no_special (s : String) :
    ∀ c ∈ (quote_plus s).data, c ≠ ';' ∧ c ≠ '=' ∧ c ≠ '&' ∧ c ≠ '@' := by
  intro c hc
  have hc2 : c ∈ (s.data.flatMap utf8EncodeChar).flatMap encodeByte := hc
  rw [List.mem_flatMap] at hc2
  obtain ⟨b, hb, hcb⟩ := hc2
  exact encodeByte_no_special (quotePlusChars_bytes_lt s.data b hb) c hcb

theorem str_append_ne_empty {a : String} (b : String) (ha : a ≠ "") :
    a ++ b ≠ "" := by
  intro h
  apply ha
  have hd := congrArg String.data h
  rw [str_data_append] at hd
  have hnil : a.data = [] := (List.append_eq_nil.mp hd).1
  exact str_data_ext (by rw [hnil])

theorem dsn_string_some (u pw h : String) (po : Int) (d : String) (t : Int)
    {p : String} (hp : p ≠ "") :
    dsn_string u pw h po d (some p) t =
      "DATABASE=" ++ d ++ ";" ++ "HOSTNAME=" ++ h ++ ";" ++
      "PORT=" ++ toString po ++ ";" ++ "PROTOCOL=TCPIP" ++ ";" ++
      "UID=" ++ u ++ ";" ++ "PWD=" ++ pw ++ ";" ++ "Security=SSL" ++ ";" ++
      "CONNECTTIMEOUT=" ++ toString t ++ ";" ++ "SSLServerCertificate=" ++ p := by
  apply str_data_ext
  simp [dsn_string, dsn_attrs, hp, pyJoin, str_data_append, List.append_assoc]

theorem dsn_string_none (u pw h : String) (po : Int) (d : String) (t : Int) :
    dsn_string u pw h po d none t =
      "DATABASE=" ++ d ++ ";" ++ "HOSTNAME=" ++ h ++ ";" ++
      "PORT=" ++ toString po ++ ";" ++ "PROTOCOL=TCPIP" ++ ";" ++
      "UID=" ++ u ++ ";" ++ "PWD=" ++ pw ++ ";" ++ "Security=SSL" ++ ";" ++
      "CONNECTTIMEOUT=" ++ toString t := by
  apply str_data_ext
  simp [dsn_string, dsn_attrs, pyJoin, str_data_append, List.append_assoc]

theorem url_string_none (u pw h : String) (po : Int) (d : String) (t : Int) :
    create_engine_with_url_params u pw h po d none t =
      "ibm_db_sa://" ++ quote_plus u ++ ":" ++ quote_plus pw ++ "@" ++ h ++
      ":" ++ toString po ++ "/" ++ d ++ "?" ++
      "security" ++ "=" ++ quote_plus "SSL" ++ "&" ++
      "connecttimeout" ++ "=" ++ quote_plus (toString t) := by
  have hq : pyJoin "&" ((url_params_list none t).map
      (fun kv => kv.1 ++ "=" ++ quote_plus kv.2)) =
      "security" ++ "=" ++ quote_plus "SSL" ++ "&" ++
      ("connecttimeout" ++ "=" ++ quote_plus (toString t)) := rfl
  have hne : ("security" ++ "=" ++ quote_plus "SSL" ++ "&" ++
      ("connecttimeout" ++ "=" ++ quote_plus (toString t))) ≠ "" := by
    repeat' apply str_append_ne_empty
    decide
  simp only [create_engine_with_url_params]
  rw [hq, if_neg hne]
  apply str_data_ext
  simp [str_data_append, List.append_assoc]

theorem url_string_some (u pw h : String) (po : Int) (d : String) (t : Int)
    {p : String} (hp : p ≠ "") :
    create_engine_with_url_params u pw h po d (some p) t =
      "ibm_db_sa://" ++ quote_plus u ++ ":" ++ quote_plus pw ++ "@" ++ h ++
      ":" ++ toString po ++ "/" ++ d ++ "?" ++
      "security" ++ "=" ++ quote_plus "SSL" ++ "&" ++
      "connecttimeout" ++ "=" ++ quote_plus (toString t) ++ "&" ++
      "SSLServerCertificate" ++ "=" ++ quote_plus p := by
  have hl : url_params_list (some p) t =
      [("security", "SSL"), ("connecttimeout", toString t),
        ("SSLServerCertificate", p)] := by
    simp [url_params_list, hp]
  have hq : pyJoin "&" ((url_params_list (some p) t).map
      (fun kv => kv.1 ++ "=" ++ quote_plus kv.2)) =
      "security" ++ "=" ++ quote_plus "SSL" ++ "&" ++
      ("connecttimeout" ++ "=" ++ quote_plus (toString t) ++ "&" ++
        ("SSLServerCertificate" ++ "=" ++ quote_plus p)) := by
    rw [hl]
    rfl
  have hne : ("security" ++ "=" ++ quote_plus "SSL" ++ "&" ++
      ("connecttimeout" ++ "=" ++ quote_plus (toString t) ++ "&" ++
        ("SSLServerCertificate" ++ "=" ++ quote_plus p))) ≠ "" := by
    repeat' apply str_append_ne_empty
    decide
  simp only [create_engine_with_url_params]
  rw [hq, if_neg hne]
  apply str_data_ext
  simp [str_data_append, List.append_assoc]

theorem beginsWith_append_self (pre rest : List Char) :
    beginsWith pre (pre ++ rest) = true := by
  induction pre with
  | nil => rfl
  | cons c cs ih => simp [beginsWith, ih]

/-- Claim C1: for every user, password, host, port, database, ca_cert_path and
connect_timeout, `create_engine_with_dsn` assembles the attribute list in
exactly the order DATABASE, HOSTNAME, PORT, PROTOCOL=TCPIP, UID, PWD,
Security=SSL, CONNECTTIMEOUT, followed by SSLServerCertificate only when a CA
path is supplied, all joined by a semicolon. -/
theorem claim_C1 (user password host : String) (port : Int) (database : String)
    (connect_timeout : Int) (p : String) (hp : p ≠ "") :
    dsn_string user password host port database (some p) connect_timeout =
      "DATABASE=" ++ database ++ ";" ++ "HOSTNAME=" ++ host ++ ";" ++
      "PORT=" ++ toString port ++ ";" ++ "PROTOCOL=TCPIP" ++ ";" ++
      "UID=" ++ user ++ ";" ++ "PWD=" ++ password ++ ";" ++
      "Security=SSL" ++ ";" ++ "CONNECTTIMEOUT=" ++ toString connect_timeout ++
      ";" ++ "SSLServerCertificate=" ++ p ∧
    dsn_string user password host port database none connect_timeout =
      "DATABASE=" ++ database ++ ";" ++ "HOSTNAME=" ++ host ++ ";" ++
      "PORT=" ++ toString port ++ ";" ++ "PROTOCOL=TCPIP" ++ ";" ++
      "UID=" ++ user ++ ";" ++ "PWD=" ++ password ++ ";" ++
      "Security=SSL" ++ ";" ++ "CONNECTTIMEOUT=" ++ toString connect_timeout :=
  ⟨dsn_string_some user password host port database connect_timeout hp,
    dsn_string_none user password host port database connect_timeout⟩

theorem claim_C1_witness :
    dsn_string "u" "pw" "h" 50000 "MYDB" (some "/ca.pem") 10 =
      "DATABASE=" ++ "MYDB" ++ ";" ++ "HOSTNAME=" ++ "h" ++ ";" ++
      "PORT=" ++ toString (50000 : Int) ++ ";" ++ "PROTOCOL=TCPIP" ++ ";" ++
      "UID=" ++ "u" ++ ";" ++ "PWD=" ++ "pw" ++ ";" ++
      "Security=SSL" ++ ";" ++ "CONNECTTIMEOUT=" ++ toString (10 : Int) ++
      ";" ++ "SSLServerCertificate=" ++ "/ca.pem" ∧
    dsn_string "u" "pw" "h" 50000 "MYDB" none 10 =
      "DATABASE=" ++ "MYDB" ++ ";" ++ "HOSTNAME=" ++ "h" ++ ";" ++
      "PORT=" ++ toString (50000 : Int) ++ ";" ++ "PROTOCOL=TCPIP" ++ ";" ++
      "UID=" ++ "u" ++ ";" ++ "PWD=" ++ "pw" ++ ";" ++
      "Security=SSL" ++ ";" ++ "CONNECTTIMEOUT=" ++ toString (10 : Int) :=
  claim_C1 "u" "pw" "h" 50000 "MYDB" 10 "/ca.pem" (by decide)

/-- Claim C2: for every input, the descriptor produced by
`create_engine_with_dsn` is the URL `ibm_db_sa:///?dsn=` followed by the
semicolon-joined attribute list percent-encoded as one opaque token, and no
character of the encoded token is a literal `;`, `=`, `&` or `@` (so the URL
carries exactly one query parameter, named `dsn`). -/
theorem claim_C2 (user password host : String) (port : Int) (database : String)
    (ca_cert_path : Option String) (connect_timeout : Int) (c : Char)
    (hc : c ∈ (quote_plus (dsn_string user password host port database
      ca_cert_path connect_timeout)).data) :
    create_engine_with_dsn user password host port database ca_cert_path
        connect_timeout =
      "ibm_db_sa:///?dsn=" ++ quote_plus (dsn_string user password host port
        database ca_cert_path connect_timeout) ∧
    (c ≠ ';' ∧ c ≠ '=' ∧ c ≠ '&' ∧ c ≠ '@') :=
  ⟨rfl, quote_plus_no_special _ c hc⟩

theorem claim_C2_witness :
    create_engine_with_dsn "u" "pw" "h" 1 "d" none 7 =
      "ibm_db_sa:///?dsn=" ++ quote_plus (dsn_string "u" "pw" "h" 1 "d" none 7) ∧
    (('D' : Char) ≠ ';' ∧ ('D' : Char) ≠ '=' ∧ ('D' : Char) ≠ '&' ∧
      ('D' : Char) ≠ '@') :=
  claim_C2 "u" "pw" "h" 1 "d" none 7 'D' (by decide)

/-- Claim C3: percent-encoding round trip — for every input, decoding
(`unquote_plus`) the value of the `dsn` query parameter of the produced URL
(the part after the fixed prefix) yields exactly the semicolon-joined
attribute list assembled before encoding. -/
theorem claim_C3 (user password host : String) (port : Int) (database : String)
    (ca_cert_path : Option String) (connect_timeout : Int) :
    create_engine_with_dsn user password host port database ca_cert_path
        connect_timeout =
      "ibm_db_sa:///?dsn=" ++ quote_plus (dsn_string user password host port
        database ca_cert_path connect_timeout) ∧
    unquote_plus (quote_plus (dsn_string user password host port database
        ca_cert_path connect_timeout)) =
      dsn_string user password host port database ca_cert_path connect_timeout :=
  ⟨rfl, unquote_plus_quote_plus _⟩

/-- Claim C4: for every input, `create_engine_with_url_params` builds the
descriptor `ibm_db_sa://<quote_plus user>:<quote_plus password>@host:port/database`
followed by a query string whose values (security=SSL, connecttimeout, and the
optional SSLServerCertificate path) are percent-encoded individually, while
host and database are embedded verbatim. -/
theorem claim_C4 (user password host : String) (port : Int) (database : String)
    (connect_timeout : Int) (p : String) (hp : p ≠ "") :
    create_engine_with_url_params user password host port database (some p)
        connect_timeout =
      "ibm_db_sa://" ++ quote_plus user ++ ":" ++ quote_plus password ++ "@" ++
      host ++ ":" ++ toString port ++ "/" ++ database ++ "?" ++
      "security" ++ "=" ++ quote_plus "SSL" ++ "&" ++
      "connecttimeout" ++ "=" ++ quote_plus (toString connect_timeout) ++ "&" ++
      "SSLServerCertificate" ++ "=" ++ quote_plus p ∧
    create_engine_with_url_params user password host port database none
        connect_timeout =
      "ibm_db_sa://" ++ quote_plus user ++ ":" ++ quote_plus password ++ "@" ++
      host ++ ":" ++ toString port ++ "/" ++ database ++ "?" ++
      "security" ++ "=" ++ quote_plus "SSL" ++ "&" ++
      "connecttimeout" ++ "=" ++ quote_plus (toString connect_timeout) :=
  ⟨url_string_some user password host port database connect_timeout hp,
    url_string_none user password host port database connect_timeout⟩

theorem claim_C4_witness :
    create_engine_with_url_params "u" "pw" "h" 50000 "MYDB" (some "/ca.pem") 10 =
      "ibm_db_sa://" ++ quote_plus "u" ++ ":" ++ quote_plus "pw" ++ "@" ++
      "h" ++ ":" ++ toString (50000 : Int) ++ "/" ++ "MYDB" ++ "?" ++
      "security" ++ "=" ++ quote_plus "SSL" ++ "&" ++
      "connecttimeout" ++ "=" ++ quote_plus (toString (10 : Int)) ++ "&" ++
      "SSLServerCertificate" ++ "=" ++ quote_plus "/ca.pem" ∧
    create_engine_with_url_params "u" "pw" "h" 50000 "MYDB" none 10 =
      "ibm_db_sa://" ++ quote_plus "u" ++ ":" ++ quote_plus "pw" ++ "@" ++
      "h" ++ ":" ++ toString (50000 : Int) ++ "/" ++ "MYDB" ++ "?" ++
      "security" ++ "=" ++ quote_plus "SSL" ++ "&" ++
      "connecttimeout" ++ "=" ++ quote_plus (toString (10 : Int)) :=
  claim_C4 "u" "pw" "h" 50000 "MYDB" 10 "/ca.pem" (by decide)

/-- Claim C5: with ca_cert_path omitted, neither builder includes an
SSLServerCertificate attribute or parameter (no DSN attribute starts with
`SSLServerCertificate=` and no query parameter bears that name); with a CA
path supplied, the DSN attribute list contains `SSLServerCertificate=<path>`,
the parameter list contains the pair, and the URL-form descriptor embeds it
with the path percent-encoded. -/
theorem claim_C5 (user password host : String) (port : Int) (database : String)
    (t : Int) (p : String) (hp : p ≠ "") (kv : String)
    (hkv : kv ∈ dsn_attrs user password host port database none t)
    (q : String × String) (hq : q ∈ url_params_list none t) :
    beginsWith "SSLServerCertificate=".data kv.data = false ∧
    q.1 ≠ "SSLServerCertificate" ∧
    ("SSLServerCertificate=" ++ p) ∈
      dsn_attrs user password host port database (some p) t ∧
    ("SSLServerCertificate", p) ∈ url_params_list (some p) t ∧
    ∃ a : String, create_engine_with_url_params user password host port
        database (some p) t =
      a ++ ("SSLServerCertificate" ++ ("=" ++ quote_plus p)) := by
  refine ⟨?_, ?_, ?_, ?_, ?_⟩
  · simp only [dsn_attrs, List.mem_cons, List.not_mem_nil, or_false] at hkv
    rcases hkv with h | h | h | h | h | h | h | h <;> subst h <;> rfl
  · simp only [url_params_list, List.append_nil, List.mem_cons,
      List.not_mem_nil, or_false] at hq
    rcases hq with h | h <;> subst h
    · decide
    · show ("connecttimeout" : String) ≠ "SSLServerCertificate"
      decide
  · simp [dsn_attrs, hp]
  · simp [url_params_list, hp]
  · refine ⟨"ibm_db_sa://" ++ quote_plus user ++ ":" ++ quote_plus password ++
      "@" ++ host ++ ":" ++ toString port ++ "/" ++ database ++ "?" ++
      "security" ++ "=" ++ quote_plus "SSL" ++ "&" ++
      "connecttimeout" ++ "=" ++ quote_plus (toString t) ++ "&", ?_⟩
    rw [url_string_some user password host port database t hp]
    apply str_data_ext
    simp [str_data_append, List.append_assoc]

theorem claim_C5_witness :
    beginsWith "SSLServerCertificate=".data ("PROTOCOL=TCPIP" : String).data =
      false ∧
    (("security", "SSL") : String × String).1 ≠ "SSLServerCertificate" ∧
    ("SSLServerCertificate=" ++ "/ca.pem") ∈
      dsn_attrs "u" "pw" "h" 1 "d" (some "/ca.pem") 7 ∧
    ("SSLServerCertificate", "/ca.pem") ∈ url_params_list (some "/ca.pem") 7 ∧
    ∃ a : String, create_engine_with_url_params "u" "pw" "h" 1 "d"
        (some "/ca.pem") 7 =
      a ++ ("SSLServerCertificate" ++ ("=" ++ quote_plus "/ca.pem")) :=
  claim_C5 "u" "pw" "h" 1 "d" 7 "/ca.pem" (by decide) "PROTOCOL=TCPIP"
    (by decide) ("security", "SSL") (by decide)

/-- Claim C6: for every stub engine whose connect or execute step raises a
driver/library error (an SQLAlchemyError, the class all such errors are
surfaced as and the class the handler catches), `test_connection` catches it,
prints its string representation, and returns False — it never re-raises. -/
theorem claim_C6 (e : StubEngine) (msg : String)
    (h : e.connectStep = .error (.sqlalchemyError msg) ∨
      (e.connectStep = .ok () ∧ e.executeStep = .error (.sqlalchemyError msg))) :
    test_connection e = .ok (false, ["Connection test failed: " ++ msg]) := by
  rcases h with h | ⟨h1, h2⟩
  · simp [test_connection, try_body, h, Bind.bind, Except.bind]
  · simp [test_connection, try_body, h1, h2, Bind.bind, Except.bind]

theorem claim_C6_witness :
    test_connection ⟨Except.error (DbError.sqlalchemyError "boom"),
        Except.ok (), Except.ok 1⟩ =
      Except.ok (false, ["Connection test failed: " ++ "boom"]) :=
  claim_C6 ⟨Except.error (DbError.sqlalchemyError "boom"), Except.ok (),
    Except.ok 1⟩ "boom" (Or.inl rfl)

/-- Claim C7: for every stub engine whose connect, execute and scalar steps
all succeed, `test_connection` prints the status line with the scalar value
and returns True; in particular a stub returning scalar 1 yields True. -/
theorem claim_C7 (e : StubEngine) (v : Int)
    (h1 : e.connectStep = .ok ()) (h2 : e.executeStep = .ok ())
    (h3 : e.scalarStep = .ok v) :
    test_connection e = .ok (true, ["Connection test returned: " ++ toString v]) := by
  simp [test_connection, try_body, h1, h2, h3, Bind.bind, Except.bind,
    Functor.map, Except.map, Pure.pure, Except.pure]

theorem claim_C7_witness :
    test_connection ⟨Except.ok (), Except.ok (), Except.ok 1⟩ =
      Except.ok (true, ["Connection test returned: " ++ toString (1 : Int)]) :=
  claim_C7 ⟨Except.ok (), Except.ok (), Except.ok 1⟩ 1 rfl rfl rfl

/-- Claim C8: descriptor construction is total and validation-free — for every
input, including a negative or out-of-range port and an empty host,
`create_engine_with_dsn` produces a definite URL and embeds the raw values
uncorrected in the attribute list. -/
theorem claim_C8 (user password host : String) (port : Int) (database : String)
    (ca_cert_path : Option String) (connect_timeout : Int) :
    ("PORT=" ++ toString port) ∈
      dsn_attrs user password host port database ca_cert_path connect_timeout ∧
    ("HOSTNAME=" ++ host) ∈
      dsn_attrs user password host port database ca_cert_path connect_timeout ∧
    create_engine_with_dsn user password host port database ca_cert_path
        connect_timeout =
      "ibm_db_sa:///?dsn=" ++ quote_plus (pyJoin ";" (dsn_attrs user password
        host port database ca_cert_path connect_timeout)) := by
  refine ⟨?_, ?_, rfl⟩ <;>
    (cases ca_cert_path with
     | none => simp [dsn_attrs]
     | some p =>
       by_cases hp : p = "" <;> simp [dsn_attrs, hp])

/-- Claim C9: for user "a b", password "p@ss!", host db.example.com, port
50000, database MYDB, timeout 10, `create_engine_with_url_params` yields a URL
whose credentials segment contains `a+b` for the user and the fully
percent-encoded password `p%40ss%21` with no literal `@` or `!`. -/
theorem claim_C9 :
    create_engine_with_url_params "a b" "p@ss!" "db.example.com" 50000 "MYDB"
        none 10 =
      "ibm_db_sa://a+b:p%40ss%21@db.example.com:50000/MYDB?security=SSL&connecttimeout=10" ∧
    quote_plus "a b" = "a+b" ∧ quote_plus "p@ss!" = "p%40ss%21" := by
  refine ⟨?_, ?_, ?_⟩ <;> rfl

/-- Claim C10: an empty-string ca_cert_path is treated identically to an
omitted one — both builders test the path for truthiness, so neither
descriptor contains an SSLServerCertificate attribute or parameter. -/
theorem claim_C10 (user password host : String) (port : Int) (database : String)
    (connect_timeout : Int) :
    dsn_attrs user password host port database (some "") connect_timeout =
      dsn_attrs user password host port database none connect_timeout ∧
    url_params_list (some "") connect_timeout =
      url_params_list none connect_timeout ∧
    create_engine_with_dsn user password host port database (some "")
        connect_timeout =
      create_engine_with_dsn user password host port database none
        connect_timeout ∧
    create_engine_with_url_params user password host port database (some "")
        connect_timeout =
      create_engine_with_url_params user password host port database none
        connect_timeout :=
  ⟨rfl, rfl, rfl, rfl⟩
